import Mathlib

/-!
Verification of the RINEX header repair and metadata injection logic of
src/conversion_funcs.py (gnss_ftp_tools).

Python strings are embedded as lists of characters (`Str := List Char`).
Python string operations used by the source are reproduced on that type:
ljust, rstrip, strip, slicing (take/drop), substring containment and find,
whitespace split, single-space join, upper.  The embedding is ASCII-faithful:
Python treats some further Unicode code points as whitespace / letters /
digits, which none of the header data in question contains.
-/

set_option maxRecDepth 16384

namespace GnssFtp

abbrev Str := List Char

/-- Characters treated as whitespace by Python str.strip and str.split
(ASCII subset: space, tab, newline, carriage return, vertical tab, form feed). -/
def pyIsSpace (c : Char) : Bool :=
  c == ' ' || c == '\t' || c == '\n' || c == '\r' || c == '\x0b' || c == '\x0c'

/-- Python str.ljust: pad on the right with spaces to width w (never truncates). -/
def ljust (s : Str) (w : Nat) : Str := s ++ List.replicate (w - s.length) ' '

/-- Python str.rstrip() with no argument: drop trailing whitespace. -/
def rstrip (s : Str) : Str := (s.reverse.dropWhile pyIsSpace).reverse

/-- Python str.lstrip() with no argument: drop leading whitespace. -/
def lstrip (s : Str) : Str := s.dropWhile pyIsSpace

/-- Python str.strip() with no argument. -/
def pyStrip (s : Str) : Str := lstrip (rstrip s)

/-- Python line.rstrip with a charset argument of carriage return and newline. -/
def rstripNL (s : Str) : Str := (s.reverse.dropWhile (fun c => c == '\n' || c == '\r')).reverse

/-- Python substring test (needle in hay). -/
def strContains (hay needle : Str) : Bool :=
  (List.range (hay.length + 1)).any (fun i => needle.isPrefixOf (hay.drop i))

/-- Python str.find: index of the first occurrence of needle in hay, as an Option
(the source only calls find after a containment check, so the -1 case never feeds
further computation). -/
def strFind (hay needle : Str) : Option Nat :=
  (List.range (hay.length + 1)).find? (fun i => needle.isPrefixOf (hay.drop i))

/-- Python str.startswith with a string argument. -/
def strStartsWith (s pre : Str) : Bool := pre.isPrefixOf s

/-- Python str.split() with no argument: split on whitespace runs, no empty tokens. -/
def pySplit (s : Str) : List Str := (s.splitOnP pyIsSpace).filter (fun t => !t.isEmpty)

/-- Python single-space str.join over a token list. -/
def pyJoin1 (ts : List Str) : Str := List.intercalate [' '] ts

/-- Lowercase-to-uppercase table for ASCII letters (Python str.upper, ASCII subset). -/
def upperPairs : List (Char × Char) :=
  [('a','A'),('b','B'),('c','C'),('d','D'),('e','E'),('f','F'),('g','G'),
   ('h','H'),('i','I'),('j','J'),('k','K'),('l','L'),('m','M'),('n','N'),
   ('o','O'),('p','P'),('q','Q'),('r','R'),('s','S'),('t','T'),('u','U'),
   ('v','V'),('w','W'),('x','X'),('y','Y'),('z','Z')]

/-- Python str.upper on one character (ASCII subset). -/
def pyUpperChar (c : Char) : Char :=
  ((upperPairs.find? (fun p => p.1 == c)).map Prod.snd).getD c

/-- Python str.upper (ASCII subset). -/
def pyUpper (s : Str) : Str := s.map pyUpperChar

/-- RINEX header label used by fix_netr8_rec_line (conversion_funcs.py line 30). -/
def recLabel : Str := "REC # / TYPE / VERS".toList

/-- RINEX header label used by fix_netr9_pgm_line (conversion_funcs.py line 50). -/
def pgmLabel : Str := "PGM / RUN BY / DATE".toList

/-- RINEX end-of-header marker (conversion_funcs.py line 125). -/
def eohMarker : Str := "END OF HEADER".toList

/-- Embeds fix_netr8_rec_line (conversion_funcs.py lines 28-46): if the
REC # / TYPE / VERS label occurs in the line and the 20-character label zone
(columns 61-80) both starts with a space and contains the label, rebuild the
line as the first 60 characters followed by the label, right-padded to 80. -/
def fix_netr8_rec_line (line_content : Str) : Str :=
  if strContains line_content recLabel then
    if strStartsWith ((line_content.drop 60).take 20) [' '] &&
       strContains ((line_content.drop 60).take 20) recLabel then
      ljust (line_content.take 60 ++ recLabel) 80
    else line_content
  else line_content

/-- Embeds fix_netr9_pgm_line (conversion_funcs.py lines 48-63): if the
PGM / RUN BY / DATE label occurs in the line, take everything before its first
occurrence, strip trailing whitespace, pad to 60 characters, append the label,
and truncate the result to 80 characters.  The Python code guards the find call
with a containment check; strFind returning some position is exactly that case. -/
def fix_netr9_pgm_line (line_content : Str) : Str :=
  match strFind line_content pgmLabel with
  | some label_pos =>
      let data_portion := ljust (rstrip (line_content.take label_pos)) 60
      (data_portion ++ pgmLabel).take 80
  | none => line_content

/-- Embeds validate_and_fix_rinex_header_line (conversion_funcs.py lines 65-87):
apply the NetR8 fix, then the NetR9 fix, returning the first result that changed
the line; otherwise truncate lines longer than 80 characters; otherwise return
the line unchanged. -/
def validate_and_fix_rinex_header_line (line_content : Str) : Str :=
  if fix_netr8_rec_line line_content ≠ line_content then fix_netr8_rec_line line_content
  else if fix_netr9_pgm_line line_content ≠ line_content then fix_netr9_pgm_line line_content
  else if 80 < line_content.length then line_content.take 80
  else line_content

/-- Python list.insert(n, a): insert a before index n, appending when n is past
the end (exactly the take/drop splice). -/
def insertAt (n : Nat) (a : α) (l : List α) : List α := l.take n ++ a :: l.drop n

/-- Synthetic END OF HEADER record inserted by edit_rinex_header
(conversion_funcs.py line 135): exactly 60 spaces, the marker, and a newline. -/
def eohRecord : Str := List.replicate 60 ' ' ++ eohMarker ++ ['\n']

/-- Condition of conversion_funcs.py lines 130 and 160: the stripped line is
non-empty and its first character is a digit (a data line). -/
def isDataLine (l : Str) : Bool := !(pyStrip l).isEmpty && (l.headD ' ').isDigit

/-- Embeds conversion_funcs.py lines 128-132: index of the first data line,
defaulting to 0 when no line qualifies. -/
def findDataStart (lines : List Str) : Nat :=
  match lines.findIdx? isDataLine with
  | some i => i
  | none => 0

/-- Concatenation of the file lines, as built by the join on line 125. -/
def joinLines (lines : List Str) : Str := lines.flatten

/-- Embeds conversion_funcs.py lines 124-135: when the joined file content does
not contain END OF HEADER, insert the synthetic record before the first data
line (index 0 when there is none). -/
def insertEOH (lines : List Str) : List Str :=
  if strContains (joinLines lines) eohMarker then lines
  else insertAt (findDataStart lines) eohRecord lines

/-- PGM field of conversion_funcs.py line 145: first token of line.split(),
truncated to 20 and left-justified to 20. -/
def pgmField (line : Str) : Str := ljust (((pySplit line).headD []).take 20) 20

/-- RUN BY field of conversion_funcs.py line 146: second token of
line.split(), truncated to 20 and left-justified to 20. -/
def runByField (line : Str) : Str :=
  ljust ((((pySplit line).drop 1).headD []).take 20) 20

/-- Joined date string of conversion_funcs.py line 148: every token of
line.split() from the third on (the label contributes its own 6 tokens, which
the split does not exclude), joined with single spaces. -/
def dateJoined (line : Str) : Str := pyJoin1 ((pySplit line).drop 2)

/-- Date field of conversion_funcs.py lines 149-151: the joined date string,
truncated to 20 if longer, then left-justified to 20. -/
def dateField (line : Str) : Str :=
  ljust (if 20 < (dateJoined line).length then (dateJoined line).take 20
         else dateJoined line) 20

/-- Embeds the body of conversion_funcs.py lines 143-154: the three rebuilt
20-character fields followed by the label and a newline. -/
def reformatPgm (line : Str) : Str :=
  pgmField line ++ runByField line ++ dateField line ++ pgmLabel ++ ['\n']

/-- Embeds the loop of conversion_funcs.py lines 137-155: scan the lines; at the
first line that contains PGM / RUN BY / DATE and whose stripped length exceeds
60, replace it by reformatPgm when the whole-line token count is at least 3, and
stop (the break sits inside the stripped-length test, so label lines of stripped
length at most 60 are passed over and scanning continues). -/
def fixPgmPass : List Str → List Str
  | [] => []
  | l :: rest =>
    if strContains l pgmLabel then
      if 60 < (pyStrip l).length then
        (if 3 ≤ (pySplit l).length then reformatPgm l else l) :: rest
      else l :: fixPgmPass rest
    else l :: fixPgmPass rest

/-- Embeds the loop of conversion_funcs.py lines 158-183: skip data lines and
blank lines, stop at the first line containing END OF HEADER, and otherwise
replace the line by the repaired content plus a newline whenever
validate_and_fix_rinex_header_line changes the newline-stripped content. -/
def validatePass : List Str → List Str
  | [] => []
  | l :: rest =>
    if isDataLine l then l :: validatePass rest
    else if (pyStrip l).isEmpty then l :: validatePass rest
    else if strContains l eohMarker then l :: rest
    else
      let line_content := rstripNL l
      let fixed := validate_and_fix_rinex_header_line line_content
      (if fixed ≠ line_content then fixed ++ ['\n'] else l) :: validatePass rest

/-- Whole header normalization of conversion_funcs.py lines 124-183. -/
def normalizeHeader (lines : List Str) : List Str :=
  validatePass (fixPgmPass (insertEOH lines))

/-- Metadata arguments of edit_rinex_header (conversion_funcs.py lines 89-104).
Optional arguments default to None. -/
structure Meta where
  station : Str
  organization : Str
  user : Str
  antenna_type : Str
  station_cartesian : Option Str := none
  station_llh : Option Str := none
  marker_num : Option Str := none
  antenna_number : Option Str := none

/-- Python truthiness of an optional string: None and the empty string are falsy. -/
def truthy : Option Str → Bool
  | none => false
  | some s => !s.isEmpty

/-- The upper-then-strip sanitization applied to every textual metadata field
(conversion_funcs.py lines 203, 207, 211, 215, 220, 227). -/
def upperTrim (s : Str) : Str := pyStrip (pyUpper s)

/-- Mantissa of a Python float literal: digits, digits.digits, digits., or
.digits (at least one digit overall). -/
def floatMantissa (s : Str) : Bool :=
  match s.splitOnP (fun c => c == '.') with
  | [d] => !d.isEmpty && d.all Char.isDigit
  | [a, b] => a.all Char.isDigit && b.all Char.isDigit && (!a.isEmpty || !b.isEmpty)
  | _ => false

/-- Optional exponent part of a Python float literal. -/
def floatExponent (s : Str) : Bool :=
  let t := match s with
           | '+' :: u => u
           | '-' :: u => u
           | u => u
  !t.isEmpty && t.all Char.isDigit

/-- Python float(token) acceptance (ASCII subset, without digit-group
underscores): optional surrounding whitespace, optional sign, then a numeric
mantissa with optional exponent, or inf, infinity, nan case-insensitively. -/
def pyFloatValid (s : Str) : Bool :=
  let t := pyStrip s
  let u := match t with
           | '+' :: v => v
           | '-' :: v => v
           | v => v
  let low := u.map (fun c => ((upperPairs.find? (fun p => p.2 == c)).map Prod.fst).getD c)
  (match u.splitOnP (fun c => c == 'e' || c == 'E') with
   | [m] => floatMantissa m
   | [m, e] => floatMantissa m && floatExponent e
   | _ => false)
  || low = "inf".toList || low = "infinity".toList || low = "nan".toList

/-- Well-formedness check of a coordinate string (conversion_funcs.py lines
233-239 and 243-249): exactly 3 whitespace-separated tokens, all accepted by
float(). -/
def coordsOk (s : Str) : Bool :=
  (pySplit s).length == 3 && (pySplit s).all pyFloatValid

/-- Position arguments of conversion_funcs.py lines 230-250.  The code emits
str(float(tok)) for each accepted token; that decimal re-rendering of the
parsed double is not modelled and the argument value is recorded as the
original token text — no claim refers to the rendered digits, only to which
flags appear. -/
def posArgs (cart llh : Option Str) : List Str :=
  if truthy cart then
    if (pySplit (cart.getD [])).length == 3 then
      if (pySplit (cart.getD [])).all pyFloatValid then
        "-O.px".toList :: pySplit (cart.getD [])
      else []
    else []
  else if truthy llh then
    if (pySplit (llh.getD [])).length == 3 then
      if (pySplit (llh.getD [])).all pyFloatValid then
        "-O.pg".toList :: pySplit (llh.getD [])
      else []
    else []
  else []

/-- Metadata argument chunk of conversion_funcs.py lines 197-228: the converter
path, the always-present sanitized fields (marker number defaulting to 20
spaces), and the antenna number pair when provided. -/
def baseArgs (m : Meta) : List Str :=
  ["/usr/local/bin/teqc".toList,
   "-O.mo".toList, (upperTrim m.station).take 60,
   "-O.ag".toList, (upperTrim m.organization).take 40,
   "-O.o".toList, (upperTrim m.user).take 20,
   "-O.at".toList, upperTrim m.antenna_type,
   "-O.mn".toList,
     if truthy m.marker_num then (upperTrim (m.marker_num.getD [])).take 20
     else List.replicate 20 ' ']
  ++ (if truthy m.antenna_number
      then ["-O.an".toList, (upperTrim (m.antenna_number.getD [])).take 20]
      else [])

/-- Full converter argument list of conversion_funcs.py lines 197-250 (the
input file path is appended afterwards at line 253 and carries no flag). -/
def teqc_args (m : Meta) : List Str :=
  baseArgs m ++ posArgs m.station_cartesian m.station_llh

/-- Value following the first occurrence of a flag in an argument list. -/
def argValue : List Str → Str → Option Str
  | [], _ => none
  | a :: rest, flag => if a = flag then rest.head? else argValue rest flag

/-- Oracle for the external effects of the converter invocation
(conversion_funcs.py lines 259-309): existence and size of the input file,
whether subprocess.run raises, the exit code, whether writing the output
raises, existence and size of the output file, and whether os.remove raises. -/
structure RunEnv where
  infileExists : Bool
  infileSize : Nat
  runRaises : Bool
  returncode : Int
  writeRaises : Bool
  outfileExists : Bool
  outfileSize : Nat
  removeRaises : Bool

/-- Observable outcome of the invocation phase: the boolean result of
edit_rinex_header, whether the cleanup branch attempted os.remove on the
temporary file, and whether the file was actually removed. -/
structure RunOutcome where
  success : Bool
  removeAttempted : Bool
  removed : Bool
  deriving DecidableEq, Repr

/-- Embeds conversion_funcs.py lines 259-309.  The cleanup guard on lines 293
and 304 is the Python condition temp_file and temp_file != infile.  Early
returns inside the try block (missing or empty input, non-zero exit, missing or
empty output) do not pass through any cleanup code; only the final success path
and the except handler do. -/
def run_teqc_phase (temp_file infile : Str) (env : RunEnv) : RunOutcome :=
  let guard := !temp_file.isEmpty && temp_file ≠ infile
  let cleanup : Bool := guard && !env.removeRaises
  if !env.infileExists then ⟨false, false, false⟩
  else if env.infileSize == 0 then ⟨false, false, false⟩
  else if env.runRaises then ⟨false, guard, cleanup⟩
  else if env.returncode != 0 then ⟨false, false, false⟩
  else if env.writeRaises then ⟨false, guard, cleanup⟩
  else if !env.outfileExists then ⟨false, false, false⟩
  else if env.outfileSize == 0 then ⟨false, false, false⟩
  else ⟨true, guard, cleanup⟩

/-- Embeds the way edit_rinex_header reaches the invocation phase: line 191
sets infile = temp_file after normalization, so the phase always runs with the
two paths equal. -/
def edit_rinex_header_run (temp_file : Str) (env : RunEnv) : RunOutcome :=
  run_teqc_phase temp_file temp_file env

/-- NetR8 defect signature, read off the firing condition of
fix_netr8_rec_line: the label occurs in the line and the 20-character label
zone starts with a space and contains the label. -/
def netr8Defect (L : Str) : Bool :=
  strContains L recLabel &&
    (strStartsWith ((L.drop 60).take 20) [' '] && strContains ((L.drop 60).take 20) recLabel)

/-- NetR9 defect signature, read off the firing condition of
fix_netr9_pgm_line: the PGM / RUN BY / DATE label occurs in the line and the
line differs from its canonical reconstruction (pre-label content
right-stripped, padded to 60 columns, label appended, truncated to 80). -/
def netr9Defect (L : Str) : Bool :=
  match strFind L pgmLabel with
  | some p => decide ((ljust (rstrip (L.take p)) 60 ++ pgmLabel).take 80 ≠ L)
  | none => false

/-- Right-stripped pre-label content of a line containing the PGM label. -/
def pgmData (L : Str) : Str :=
  match strFind L pgmLabel with
  | some p => rstrip (L.take p)
  | none => []

/-- The always-emitted metadata flags of the converter invocation. -/
def coreFlagsPresent (m : Meta) : Prop :=
  "-O.mo".toList ∈ teqc_args m ∧ "-O.ag".toList ∈ teqc_args m ∧
  "-O.o".toList ∈ teqc_args m ∧ "-O.at".toList ∈ teqc_args m ∧
  "-O.mn".toList ∈ teqc_args m

/-- NetR9 sample line of the claims (69 characters, label found at index 50). -/
def netr9Line : Str :=
  "NetR9 5.48Receiver Operator   20250622 000000 UTC PGM / RUN BY / DATE".toList

/-- The same NetR9 sample as it appears in the file read by edit_rinex_header,
with its trailing newline. -/
def netr9FileLine : Str := netr9Line ++ ['\n']

/-- NetR8 sample line of the claims (80 characters, label zone has a leading
space). -/
def netr8Line : Str :=
  "4906K34356          Trimble NetR8       48.01                REC # / TYPE / VERS".toList

/-- Line whose pre-label tokens are A, B, C with the label exactly at column
61: its joined remaining pre-label tokens are shorter than 20 characters, which
separates the behaviour the spec describes from the code. -/
def c1Line : Str := "A B C".toList ++ List.replicate 55 ' ' ++ pgmLabel ++ ['\n']

/-- A bare PGM / RUN BY / DATE label line: 19 characters, label at column 1. -/
def c3Line : Str := pgmLabel

/-- A line with 70 characters of data before the PGM label: the NetR9 repair
fires but the 80-character truncation cuts the label off. -/
def c4Line : Str := List.replicate 70 'A' ++ pgmLabel

/-- One-line file with no END OF HEADER marker and no digit-leading line. -/
def c5Lines : List Str := ["ABC\n".toList]

/-- Thirteen-line file without the marker whose first digit-leading line sits
at index 12, matching the example in the claim. -/
def c5WitnessLines : List Str :=
  List.replicate 12 ("HEADER\n".toList) ++ ["1 2 3\n".toList]

/-- A non-label, sub-80-column header line for the pass-through witness. -/
def c3WitnessLine : Str := "OBS DATA HEADER LINE".toList

/-- Line with a single token before the PGM label (stripped length 79): the
spec says the repair must be skipped for fewer than 3 pre-label tokens. -/
def c9Line : Str := 'X' :: (List.replicate 59 ' ' ++ pgmLabel ++ ['\n'])

/-- The over-long organization example of the claims (70 characters). -/
def orgLong : Str :=
  "Some Very Long Organization Name Exceeding Forty Characters Definitely".toList

/-- Fully populated metadata record used by the injection witnesses. -/
def metaFull : Meta :=
  { station := "n8ur lab ".toList
    organization := orgLong
    user := "jra".toList
    antenna_type := "TRM57971.00".toList
    station_cartesian := some ("506387.0 -4882826.0 4087070.0".toList)
    station_llh := some ("40.08 -105.22 1620.0".toList)
    marker_num := some ("12345".toList)
    antenna_number := some ("678".toList) }

/-! Helper lemmas. -/

theorem ljust_length_of_le {s : Str} {w : Nat} (h : s.length ≤ w) :
    (ljust s w).length = w := by
  simp [ljust]
  omega

theorem length_take_le (s : Str) (n : Nat) : (s.take n).length ≤ n := by
  simp [List.length_take]

theorem fix_netr8_cases (L : Str) :
    fix_netr8_rec_line L = L ∨
      (fix_netr8_rec_line L = ljust (L.take 60 ++ recLabel) 80 ∧
       strContains ((L.drop 60).take 20) recLabel = true) := by
  unfold fix_netr8_rec_line
  split_ifs with h1 h2
  · simp only [Bool.and_eq_true] at h2
    exact Or.inr ⟨rfl, h2.2⟩
  · exact Or.inl rfl
  · exact Or.inl rfl

theorem fix_netr9_cases (L : Str) :
    fix_netr9_pgm_line L = L ∨
      ∃ p, strFind L pgmLabel = some p ∧
        fix_netr9_pgm_line L = (ljust (rstrip (L.take p)) 60 ++ pgmLabel).take 80 := by
  unfold fix_netr9_pgm_line
  cases h : strFind L pgmLabel with
  | none => exact Or.inl rfl
  | some p => exact Or.inr ⟨p, rfl, rfl⟩

theorem fix_netr8_length (L : Str) (h : fix_netr8_rec_line L ≠ L) :
    (fix_netr8_rec_line L).length = 80 := by
  rcases fix_netr8_cases L with heq | ⟨heq, _⟩
  · exact absurd heq h
  · rw [heq]
    apply ljust_length_of_le
    have := length_take_le L 60
    simp only [List.length_append]
    have : recLabel.length = 19 := by decide
    omega

theorem fix_netr9_length (L : Str) (h : fix_netr9_pgm_line L ≠ L) :
    (fix_netr9_pgm_line L).length ≤ 80 := by
  rcases fix_netr9_cases L with heq | ⟨p, _, heq⟩
  · exact absurd heq h
  · rw [heq]
    exact length_take_le _ 80

/-! Claim theorems. -/

/-- C10: for every input string, the string returned by
validate_and_fix_rinex_header_line has length at most 80 characters, on each
of its branches (NetR8 fix, NetR9 fix, generic truncation, pass-through). -/
theorem C10_length_bound (L : Str) :
    (validate_and_fix_rinex_header_line L).length ≤ 80 := by
  unfold validate_and_fix_rinex_header_line
  split_ifs with h1 h2 h3
  · exact le_of_eq (fix_netr8_length L h1)
  · exact fix_netr9_length L h2
  · exact length_take_le L 80
  · omega

/-- C2: the 80-character NetR8 sample line, whose label zone starts with a
space, is repaired so that columns 1-60 are kept verbatim and columns 61-80
are exactly the label left-justified with no leading space. -/
theorem C2_netr8_line_repair :
    validate_and_fix_rinex_header_line netr8Line = netr8Line.take 60 ++ recLabel ++ [' '] ∧
    (validate_and_fix_rinex_header_line netr8Line).take 60 = netr8Line.take 60 ∧
    (validate_and_fix_rinex_header_line netr8Line).drop 60 = recLabel ++ [' '] ∧
    netr8Line.length = 80 ∧
    strStartsWith (netr8Line.drop 60) [' '] = true := by decide

/-- C9: the code does not skip the PGM / RUN BY / DATE repair when fewer than
3 tokens precede the label, because line.split() also counts the 6 tokens of
the label itself; on a line with a single pre-label token the repair is
attempted and fills the RUN BY and date fields with the label fragments. -/
theorem C9_short_pgm_line_reformatted :
    (pySplit (c9Line.take 60)).length = 1 ∧
    strFind c9Line pgmLabel = some 60 ∧
    60 < (pyStrip c9Line).length ∧
    fixPgmPass [c9Line] ≠ [c9Line] ∧
    fixPgmPass [c9Line] =
      [ljust ("X".toList) 20 ++ ljust ("PGM".toList) 20 ++
       ljust ("/ RUN BY / DATE".toList) 20 ++ pgmLabel ++ ['\n']] := by decide

/-- C8: the cleanup of the temporary normalization file never runs, on the
success path or on any failure path, because line 191 sets infile to
temp_file and the cleanup guard requires temp_file to differ from infile; in
particular a fully successful run returns True with the temporary file still
on disk. -/
theorem C8_cleanup_never_runs :
    (∀ (temp_file : Str) (env : RunEnv),
        (edit_rinex_header_run temp_file env).removeAttempted = false ∧
        (edit_rinex_header_run temp_file env).removed = false) ∧
    edit_rinex_header_run ("/tmp/header.fixed".toList)
        ⟨true, 100, false, 0, false, true, 100, false⟩ =
      ⟨true, false, false⟩ := by
  constructor
  · intro tf env
    unfold edit_rinex_header_run run_teqc_phase
    simp
    split_ifs <;> simp
  · decide

/-- C1 counterexample: on a line whose pre-label tokens are A, B, C with the
label at column 61, the claim predicts the date field to be the remaining
pre-label tokens joined (the single token C, padded to 20), but the code joins
every remaining token of line.split(), label tokens included, and produces a
different date field. -/
theorem C1_counterexample :
    strContains c1Line pgmLabel = true ∧
    60 < (pyStrip c1Line).length ∧
    fixPgmPass [c1Line] = [reformatPgm c1Line] ∧
    ((reformatPgm c1Line).drop 40).take 20 = "C PGM / RUN BY / DAT".toList ∧
    ((reformatPgm c1Line).drop 40).take 20 ≠ ljust ("C".toList) 20 := by decide

/-- C3 counterexample: a bare 19-character PGM / RUN BY / DATE label line
matches neither claimed defect signature (no REC label anywhere, and the PGM
label sits at column 1, not beyond column 60) and is not longer than 80
characters, yet the repair function changes it. -/
theorem C3_counterexample :
    c3Line.length = 19 ∧
    strContains c3Line recLabel = false ∧
    strFind c3Line pgmLabel = some 0 ∧
    validate_and_fix_rinex_header_line c3Line ≠ c3Line := by decide

/-- C4 counterexample: on a line with 70 data characters before the PGM label
the NetR9 rule fires, but the corrected line does not carry the label at
column 61; the 80-character truncation cuts the label so that it no longer
appears in the corrected line at all. -/
theorem C4_counterexample :
    fix_netr9_pgm_line c4Line ≠ c4Line ∧
    strStartsWith ((fix_netr9_pgm_line c4Line).drop 60) pgmLabel = false ∧
    strContains (fix_netr9_pgm_line c4Line) pgmLabel = false := by decide

/-- C5 counterexample: for a file with no END OF HEADER marker and no
digit-leading line, the claim says the marker record is appended at the end,
but the code inserts it at index 0, the default of the search loop. -/
theorem C5_counterexample :
    strContains (joinLines c5Lines) eohMarker = false ∧
    c5Lines.findIdx? isDataLine = none ∧
    insertEOH c5Lines = eohRecord :: c5Lines ∧
    insertEOH c5Lines ≠ c5Lines ++ [eohRecord] := by decide

theorem take_append_of_length {α : Type} {a r : List α} {n : Nat} (h : a.length = n) :
    (a ++ r).take n = a :=
  List.take_left' h

theorem drop_append_of_length {α : Type} {a r : List α} {n : Nat} (h : a.length = n) :
    (a ++ r).drop n = r :=
  List.drop_left' h

/-- C5 (amended): with no END OF HEADER in the joined file content, the
synthetic record is inserted exactly before the first digit-leading line,
leaving everything before and after intact; when no digit-leading line exists
it is inserted at the beginning of the file. -/
theorem C5_insert_eoh (lines : List Str) (k : Nat)
    (hno : strContains (joinLines lines) eohMarker = false) :
    (lines.findIdx? isDataLine = some k →
        insertEOH lines = lines.take k ++ eohRecord :: lines.drop k ∧
        (insertEOH lines).take k = lines.take k ∧
        (insertEOH lines).drop (k + 1) = lines.drop k) ∧
    (lines.findIdx? isDataLine = none → insertEOH lines = eohRecord :: lines) := by
  constructor
  · intro hfind
    have hk : k < lines.length := by
      rcases List.findIdx?_eq_some_iff_getElem.mp hfind with ⟨h, _, _⟩
      exact h
    have hlen : (lines.take k).length = k := by
      simp [List.length_take]
      omega
    have hmain : insertEOH lines = lines.take k ++ eohRecord :: lines.drop k := by
      unfold insertEOH findDataStart insertAt
      rw [hno, hfind]
      simp
    refine ⟨hmain, ?_, ?_⟩
    · rw [hmain]
      exact take_append_of_length hlen
    · rw [hmain]
      have : lines.take k ++ eohRecord :: lines.drop k =
          (lines.take k ++ [eohRecord]) ++ lines.drop k := by simp
      rw [this]
      apply drop_append_of_length
      simp [hlen]
  · intro hfind
    unfold insertEOH findDataStart insertAt
    rw [hno, hfind]
    simp

/-- Witness for C5_insert_eoh on a 13-line file whose first digit-leading line
sits at index 12, matching the example of the claim. -/
theorem C5_insert_eoh_witness :
    insertEOH c5WitnessLines =
      c5WitnessLines.take 12 ++ eohRecord :: c5WitnessLines.drop 12 ∧
    (insertEOH c5WitnessLines).drop 13 = c5WitnessLines.drop 12 :=
  ⟨((C5_insert_eoh c5WitnessLines 12 (by decide)).1 (by decide)).1,
   ((C5_insert_eoh c5WitnessLines 12 (by decide)).1 (by decide)).2.2⟩

theorem pgmField_length (line : Str) : (pgmField line).length = 20 :=
  ljust_length_of_le (length_take_le _ 20)

theorem runByField_length (line : Str) : (runByField line).length = 20 :=
  ljust_length_of_le (length_take_le _ 20)

theorem dateField_length (line : Str) : (dateField line).length = 20 := by
  unfold dateField
  apply ljust_length_of_le
  split_ifs with h
  · exact length_take_le _ 20
  · omega

/-- C1 (amended): at the first PGM / RUN BY / DATE line of stripped length
over 60 (with at least 3 whole-line tokens, which the label alone guarantees),
the normalization pass rebuilds the line as three fields of exactly 20
characters - first token, second token, and the remaining tokens of
line.split() (label tokens included) joined and truncated to 20 - followed
immediately by the label, leaving the following lines untouched; on the cited
NetR9 sample the fields are NetR9, 5.48Receiver and Operator 20250622 00, and
the whole rebuilt record is 80 characters including its newline. -/
theorem C1_pgm_reformat_fields (line : Str) (rest : List Str)
    (hc : strContains line pgmLabel = true)
    (hlen : 60 < (pyStrip line).length)
    (hparts : 3 ≤ (pySplit line).length) :
    fixPgmPass (line :: rest) = reformatPgm line :: rest ∧
    (reformatPgm line).take 20 = pgmField line ∧
    ((reformatPgm line).drop 20).take 20 = runByField line ∧
    ((reformatPgm line).drop 40).take 20 = dateField line ∧
    (reformatPgm line).drop 60 = pgmLabel ++ ['\n'] ∧
    (reformatPgm line).length = 80 ∧
    reformatPgm netr9FileLine =
      ljust ("NetR9".toList) 20 ++ ljust ("5.48Receiver".toList) 20 ++
      "Operator 20250622 00".toList ++ pgmLabel ++ ['\n'] := by
  have e1 : (reformatPgm line).drop 20 =
      runByField line ++ (dateField line ++ (pgmLabel ++ ['\n'])) := by
    unfold reformatPgm
    simp only [List.append_assoc]
    exact drop_append_of_length (pgmField_length line)
  have e2 : (runByField line ++ (dateField line ++ (pgmLabel ++ ['\n']))).drop 20 =
      dateField line ++ (pgmLabel ++ ['\n']) :=
    drop_append_of_length (runByField_length line)
  have e3 : (dateField line ++ (pgmLabel ++ ['\n'])).drop 20 = pgmLabel ++ ['\n'] :=
    drop_append_of_length (dateField_length line)
  refine ⟨?_, ?_, ?_, ?_, ?_, ?_, by decide⟩
  · simp [fixPgmPass, hc, hlen, hparts]
  · unfold reformatPgm
    simp only [List.append_assoc]
    exact take_append_of_length (pgmField_length line)
  · rw [e1]
    exact take_append_of_length (runByField_length line)
  · have h40 : ((reformatPgm line).drop 20).drop 20 = (reformatPgm line).drop 40 := by
      simp [List.drop_drop]
    rw [← h40, e1, e2]
    exact take_append_of_length (dateField_length line)
  · have h60 : (((reformatPgm line).drop 20).drop 20).drop 20 = (reformatPgm line).drop 60 := by
      simp [List.drop_drop]
    rw [← h60, e1, e2, e3]
  · unfold reformatPgm
    simp [pgmField_length, runByField_length, dateField_length]
    decide

/-- Witness for C1_pgm_reformat_fields on the cited NetR9 line with its
newline. -/
theorem C1_pgm_reformat_fields_witness :
    fixPgmPass [netr9FileLine] = reformatPgm netr9FileLine :: [] ∧
    (reformatPgm netr9FileLine).length = 80 :=
  ⟨(C1_pgm_reformat_fields netr9FileLine [] (by decide) (by decide) (by decide)).1,
   (C1_pgm_reformat_fields netr9FileLine [] (by decide) (by decide)
      (by decide)).2.2.2.2.2.1⟩

theorem strContains_length {hay needle : Str} (h : strContains hay needle = true) :
    needle.length ≤ hay.length := by
  unfold strContains at h
  rcases List.any_eq_true.mp h with ⟨i, _, hpre⟩
  have hp : needle <+: hay.drop i := List.isPrefixOf_iff_prefix.mp hpre
  have := hp.length_le
  simp [List.length_drop] at this
  omega

/-- C3 (amended): a line of length at most 80 that matches neither the NetR8
defect signature nor the NetR9 non-canonical-layout signature (label present
and line different from its canonical reconstruction) passes through
validate_and_fix_rinex_header_line byte-for-byte unchanged. -/
theorem C3_passthrough (L : Str)
    (h8 : netr8Defect L = false) (h9 : netr9Defect L = false)
    (hlen : L.length ≤ 80) :
    validate_and_fix_rinex_header_line L = L := by
  have hf8 : fix_netr8_rec_line L = L := by
    unfold fix_netr8_rec_line
    split_ifs with h1 h2
    · exfalso
      unfold netr8Defect at h8
      rw [h1, h2] at h8
      simp at h8
    · rfl
    · rfl
  have hf9 : fix_netr9_pgm_line L = L := by
    rcases fix_netr9_cases L with h | ⟨p, hfind, heq⟩
    · exact h
    · unfold netr9Defect at h9
      rw [hfind] at h9
      simp at h9
      rw [heq, h9]
  unfold validate_and_fix_rinex_header_line
  rw [hf8, hf9]
  simp [Nat.not_lt.mpr hlen]

/-- Witness for C3_passthrough on a plain sub-80-column header line. -/
theorem C3_passthrough_witness :
    validate_and_fix_rinex_header_line c3WitnessLine = c3WitnessLine :=
  C3_passthrough c3WitnessLine (by decide) (by decide) (by decide)

/-- C4 (amended): whenever the NetR8 rule fires, the corrected line carries
the unchanged label exactly at column 61 (followed by the single padding
space); whenever the NetR9 rule fires and the right-stripped pre-label content
fits in 60 columns, the corrected line is exactly the padded data portion with
the label at column 61. -/
theorem C4_label_at_column61 (L : Str) :
    (fix_netr8_rec_line L ≠ L →
        (fix_netr8_rec_line L).drop 60 = recLabel ++ [' '] ∧
        strStartsWith ((fix_netr8_rec_line L).drop 60) recLabel = true) ∧
    (fix_netr9_pgm_line L ≠ L → (pgmData L).length ≤ 60 →
        (fix_netr9_pgm_line L).drop 60 = pgmLabel) := by
  constructor
  · intro hne
    rcases fix_netr8_cases L with h | ⟨heq, hcont⟩
    · exact absurd h hne
    · have hrl : recLabel.length = 19 := by decide
      have hL : 60 ≤ L.length := by
        have h := strContains_length hcont
        rw [hrl] at h
        simp [List.length_take, List.length_drop] at h
        omega
      have htake : (L.take 60).length = 60 := by
        simp [List.length_take]
        omega
      have hlb : (L.take 60 ++ recLabel).length = 79 := by
        simp [List.length_append, htake, hrl]
      have hrw : fix_netr8_rec_line L = L.take 60 ++ (recLabel ++ [' ']) := by
        rw [heq]
        unfold ljust
        rw [hlb]
        simp
      have hdrop : (fix_netr8_rec_line L).drop 60 = recLabel ++ [' '] := by
        rw [hrw]
        exact drop_append_of_length htake
      exact ⟨hdrop, by rw [hdrop]; decide⟩
  · intro hne hdata
    rcases fix_netr9_cases L with h | ⟨p, hfind, heq⟩
    · exact absurd h hne
    · have hdata' : (rstrip (L.take p)).length ≤ 60 := by
        unfold pgmData at hdata
        rw [hfind] at hdata
        exact hdata
      have hl : (ljust (rstrip (L.take p)) 60).length = 60 := ljust_length_of_le hdata'
      have hlen79 : (ljust (rstrip (L.take p)) 60 ++ pgmLabel).length ≤ 80 := by
        have hpl : pgmLabel.length = 19 := by decide
        simp [List.length_append, hl, hpl]
      have hfull : fix_netr9_pgm_line L = ljust (rstrip (L.take p)) 60 ++ pgmLabel := by
        rw [heq]
        exact List.take_of_length_le hlen79
      rw [hfull]
      exact drop_append_of_length hl

/-- Witness for C4_label_at_column61: the NetR8 branch on the cited NetR8
sample and the NetR9 branch on the cited NetR9 sample. -/
theorem C4_label_at_column61_witness :
    strStartsWith ((fix_netr8_rec_line netr8Line).drop 60) recLabel = true ∧
    (fix_netr9_pgm_line netr9Line).drop 60 = pgmLabel :=
  ⟨((C4_label_at_column61 netr8Line).1 (by decide)).2,
   (C4_label_at_column61 netr9Line).2 (by decide) (by decide)⟩

theorem pyUpperChar_ne (c d : Char)
    (hd : (upperPairs.find? (fun p => p.1 == d)).isSome = true) :
    pyUpperChar c ≠ d := by
  unfold pyUpperChar
  cases h : upperPairs.find? (fun p => p.1 == c) with
  | none =>
    simp only [Option.map_none', Option.getD_none]
    intro hcd
    subst hcd
    rw [h] at hd
    simp at hd
  | some q =>
    simp only [Option.map_some', Option.getD_some]
    have hq : q ∈ upperPairs := List.mem_of_find?_eq_some h
    have hvals : ∀ r ∈ upperPairs, ∀ s ∈ upperPairs, r.2 ≠ s.1 := by decide
    intro hqd
    rcases Option.isSome_iff_exists.mp hd with ⟨s, hs⟩
    have hsmem : s ∈ upperPairs := List.mem_of_find?_eq_some hs
    have hsd := List.find?_some hs
    have hsd' : s.1 = d := by simpa using hsd
    have hne : q.2 ≠ s.1 := hvals q hq s hsmem
    rw [hsd'] at hne
    exact hne hqd

theorem not_mem_pyUpper (s : Str) (d : Char)
    (hd : (upperPairs.find? (fun p => p.1 == d)).isSome = true) :
    d ∉ pyUpper s := by
  intro hmem
  rcases List.mem_map.mp hmem with ⟨c, _, hc⟩
  exact pyUpperChar_ne c d hd hc

theorem mem_rstrip {x : Char} {s : Str} (h : x ∈ rstrip s) : x ∈ s := by
  unfold rstrip at h
  rw [List.mem_reverse] at h
  have h2 := (List.dropWhile_sublist pyIsSpace).subset h
  rwa [List.mem_reverse] at h2

theorem mem_pyStrip {x : Char} {s : Str} (h : x ∈ pyStrip s) : x ∈ s := by
  unfold pyStrip lstrip at h
  exact mem_rstrip ((List.dropWhile_sublist pyIsSpace).subset h)

theorem mem_upperTrim {x : Char} {s : Str} (h : x ∈ upperTrim s) : x ∈ pyUpper s :=
  mem_pyStrip h

theorem mem_take_sub {α : Type} {x : α} {l : List α} {n : Nat} (h : x ∈ l.take n) : x ∈ l :=
  (List.take_sublist n l).subset h

theorem upperTrim_take_ne (s : Str) (n : Nat) (flag : Str) (d : Char)
    (hd : (upperPairs.find? (fun p => p.1 == d)).isSome = true)
    (hdf : d ∈ flag) :
    (upperTrim s).take n ≠ flag := by
  intro h
  exact not_mem_pyUpper s d hd (mem_upperTrim (mem_take_sub (h ▸ hdf)))

theorem upperTrim_ne (s : Str) (flag : Str) (d : Char)
    (hd : (upperPairs.find? (fun p => p.1 == d)).isSome = true)
    (hdf : d ∈ flag) :
    upperTrim s ≠ flag := by
  intro h
  exact not_mem_pyUpper s d hd (mem_upperTrim (h ▸ hdf))

theorem argValue_cons_ne {a flag : Str} (h : a ≠ flag) (rest : List Str) :
    argValue (a :: rest) flag = argValue rest flag := by
  simp [argValue, h]

theorem argValue_cons_self (flag : Str) (rest : List Str) :
    argValue (flag :: rest) flag = rest.head? := by
  simp [argValue]

theorem teqc_args_expand (m : Meta) :
    teqc_args m =
      "/usr/local/bin/teqc".toList ::
      "-O.mo".toList :: (upperTrim m.station).take 60 ::
      "-O.ag".toList :: (upperTrim m.organization).take 40 ::
      "-O.o".toList :: (upperTrim m.user).take 20 ::
      "-O.at".toList :: upperTrim m.antenna_type ::
      "-O.mn".toList ::
      (if truthy m.marker_num then (upperTrim (m.marker_num.getD [])).take 20
       else List.replicate 20 ' ') ::
      ((if truthy m.antenna_number
        then ["-O.an".toList, (upperTrim (m.antenna_number.getD [])).take 20]
        else []) ++ posArgs m.station_cartesian m.station_llh) := by
  simp [teqc_args, baseArgs]

/-- C6: every injected metadata value in the converter argument list is the
upper-cased, whitespace-trimmed input truncated to its maximum length (60 for
the station, 40 for the organization, 20 for operator, marker number and
antenna number), hence never exceeds that maximum; the cited station and
organization examples evaluate exactly as claimed. -/
theorem C6_metadata_sanitization (m : Meta) :
    argValue (teqc_args m) ("-O.mo".toList) = some ((upperTrim m.station).take 60) ∧
    argValue (teqc_args m) ("-O.ag".toList) = some ((upperTrim m.organization).take 40) ∧
    argValue (teqc_args m) ("-O.o".toList) = some ((upperTrim m.user).take 20) ∧
    (truthy m.marker_num = true →
      argValue (teqc_args m) ("-O.mn".toList) =
        some ((upperTrim (m.marker_num.getD [])).take 20)) ∧
    (truthy m.antenna_number = true →
      argValue (teqc_args m) ("-O.an".toList) =
        some ((upperTrim (m.antenna_number.getD [])).take 20)) ∧
    (m.station = "n8ur lab ".toList →
      argValue (teqc_args m) ("-O.mo".toList) = some ("N8UR LAB".toList)) ∧
    (m.organization = orgLong →
      argValue (teqc_args m) ("-O.ag".toList) = some ((pyUpper orgLong).take 40) ∧
      ((pyUpper orgLong).take 40).length = 40) ∧
    ((upperTrim m.station).take 60).length ≤ 60 ∧
    ((upperTrim m.organization).take 40).length ≤ 40 ∧
    ((upperTrim m.user).take 20).length ≤ 20 ∧
    ((upperTrim (m.marker_num.getD [])).take 20).length ≤ 20 ∧
    ((upperTrim (m.antenna_number.getD [])).take 20).length ≤ 20 := by
  have hmo : argValue (teqc_args m) ("-O.mo".toList) =
      some ((upperTrim m.station).take 60) := by
    rw [teqc_args_expand m, argValue_cons_ne (by decide), argValue_cons_self]
    simp
  have hag : argValue (teqc_args m) ("-O.ag".toList) =
      some ((upperTrim m.organization).take 40) := by
    rw [teqc_args_expand m, argValue_cons_ne (by decide), argValue_cons_ne (by decide),
      argValue_cons_ne (upperTrim_take_ne m.station 60 _ 'a' (by decide) (by decide)),
      argValue_cons_self]
    simp
  have ho : argValue (teqc_args m) ("-O.o".toList) =
      some ((upperTrim m.user).take 20) := by
    rw [teqc_args_expand m, argValue_cons_ne (by decide), argValue_cons_ne (by decide),
      argValue_cons_ne (upperTrim_take_ne m.station 60 _ 'o' (by decide) (by decide)),
      argValue_cons_ne (by decide),
      argValue_cons_ne (upperTrim_take_ne m.organization 40 _ 'o' (by decide) (by decide)),
      argValue_cons_self]
    simp
  have hmn : truthy m.marker_num = true →
      argValue (teqc_args m) ("-O.mn".toList) =
        some ((upperTrim (m.marker_num.getD [])).take 20) := by
    intro htr
    rw [teqc_args_expand m, argValue_cons_ne (by decide), argValue_cons_ne (by decide),
      argValue_cons_ne (upperTrim_take_ne m.station 60 _ 'm' (by decide) (by decide)),
      argValue_cons_ne (by decide),
      argValue_cons_ne (upperTrim_take_ne m.organization 40 _ 'm' (by decide) (by decide)),
      argValue_cons_ne (by decide),
      argValue_cons_ne (upperTrim_take_ne m.user 20 _ 'm' (by decide) (by decide)),
      argValue_cons_ne (by decide),
      argValue_cons_ne (upperTrim_ne m.antenna_type _ 'm' (by decide) (by decide)),
      argValue_cons_self]
    simp [htr]
  have han : truthy m.antenna_number = true →
      argValue (teqc_args m) ("-O.an".toList) =
        some ((upperTrim (m.antenna_number.getD [])).take 20) := by
    intro htr
    have hmnval : (if truthy m.marker_num
        then (upperTrim (m.marker_num.getD [])).take 20
        else List.replicate 20 ' ') ≠ "-O.an".toList := by
      cases hmn : truthy m.marker_num with
      | true =>
        simpa using upperTrim_take_ne (m.marker_num.getD []) 20 ("-O.an".toList) 'a'
          (by decide) (by decide)
      | false =>
        simp
    rw [teqc_args_expand m, argValue_cons_ne (by decide), argValue_cons_ne (by decide),
      argValue_cons_ne (upperTrim_take_ne m.station 60 _ 'a' (by decide) (by decide)),
      argValue_cons_ne (by decide),
      argValue_cons_ne (upperTrim_take_ne m.organization 40 _ 'a' (by decide) (by decide)),
      argValue_cons_ne (by decide),
      argValue_cons_ne (upperTrim_take_ne m.user 20 _ 'a' (by decide) (by decide)),
      argValue_cons_ne (by decide),
      argValue_cons_ne (upperTrim_ne m.antenna_type _ 'a' (by decide) (by decide)),
      argValue_cons_ne (by decide), argValue_cons_ne hmnval]
    simp only [htr, if_true, List.cons_append, List.nil_append]
    rw [argValue_cons_self]
    simp
  refine ⟨hmo, hag, ho, hmn, han, ?_, ?_, ?_, ?_, ?_, ?_, ?_⟩
  · intro hst
    rw [hst] at hmo
    rw [show (upperTrim ("n8ur lab ".toList)).take 60 = "N8UR LAB".toList from by decide]
      at hmo
    exact hmo
  · intro horg
    rw [horg] at hag
    constructor
    · rw [show (upperTrim orgLong).take 40 = (pyUpper orgLong).take 40 from by decide] at hag
      exact hag
    · decide
  · exact length_take_le _ 60
  · exact length_take_le _ 40
  · exact length_take_le _ 20
  · exact length_take_le _ 20
  · exact length_take_le _ 20

/-- Witness for C6_metadata_sanitization on a fully populated metadata record
with the cited station and organization values. -/
theorem C6_metadata_sanitization_witness :
    argValue (teqc_args metaFull) ("-O.mo".toList) = some ("N8UR LAB".toList) ∧
    argValue (teqc_args metaFull) ("-O.mn".toList) =
      some ((upperTrim (metaFull.marker_num.getD [])).take 20) :=
  ⟨(C6_metadata_sanitization metaFull).2.2.2.2.2.1 (by decide),
   (C6_metadata_sanitization metaFull).2.2.2.1 (by decide)⟩

theorem mem_posArgs {x : Str} {c l : Option Str} (hx : x ∈ posArgs c l) :
    (x = "-O.px".toList ∧ truthy c = true ∧ coordsOk (c.getD []) = true) ∨
    (x = "-O.pg".toList ∧ truthy c = false ∧ truthy l = true ∧
      coordsOk (l.getD []) = true) ∨
    pyFloatValid x = true := by
  unfold posArgs at hx
  split at hx
  case isTrue hc =>
    split at hx
    case isTrue h3 =>
      split at hx
      case isTrue hall =>
        rcases List.mem_cons.mp hx with rfl | hx2
        · refine Or.inl ⟨rfl, hc, ?_⟩
          unfold coordsOk
          rw [h3, hall]
          rfl
        · exact Or.inr (Or.inr (List.all_eq_true.mp hall _ hx2))
      case isFalse hall => simp at hx
    case isFalse h3 => simp at hx
  case isFalse hc =>
    split at hx
    case isTrue hl =>
      split at hx
      case isTrue h3 =>
        split at hx
        case isTrue hall =>
          rcases List.mem_cons.mp hx with rfl | hx2
          · refine Or.inr (Or.inl ⟨rfl, Bool.not_eq_true _ ▸ Bool.of_not_eq_true hc, hl, ?_⟩)
            unfold coordsOk
            rw [h3, hall]
            rfl
          · exact Or.inr (Or.inr (List.all_eq_true.mp hall _ hx2))
        case isFalse hall => simp at hx
      case isFalse h3 => simp at hx
    case isFalse hl => simp at hx

theorem px_pg_not_mem_baseArgs (m : Meta) (flag : Str)
    (hflag : flag = "-O.px".toList ∨ flag = "-O.pg".toList) :
    flag ∉ baseArgs m := by
  have hp : 'p' ∈ flag := by rcases hflag with rfl | rfl <;> decide
  have hsan_take : ∀ (s : Str) (n : Nat), (upperTrim s).take n ≠ flag :=
    fun s n => upperTrim_take_ne s n flag 'p' (by decide) hp
  have hsan : ∀ (s : Str), upperTrim s ≠ flag :=
    fun s => upperTrim_ne s flag 'p' (by decide) hp
  intro hmem
  unfold baseArgs at hmem
  rcases List.mem_append.mp hmem with hm | hm
  · simp only [List.mem_cons, List.not_mem_nil, or_false] at hm
    rcases hm with e|e|e|e|e|e|e|e|e|e|e
    · rcases hflag with rfl | rfl <;> exact absurd e (by decide)
    · rcases hflag with rfl | rfl <;> exact absurd e (by decide)
    · exact hsan_take _ _ e.symm
    · rcases hflag with rfl | rfl <;> exact absurd e (by decide)
    · exact hsan_take _ _ e.symm
    · rcases hflag with rfl | rfl <;> exact absurd e (by decide)
    · exact hsan_take _ _ e.symm
    · rcases hflag with rfl | rfl <;> exact absurd e (by decide)
    · exact hsan _ e.symm
    · rcases hflag with rfl | rfl <;> exact absurd e (by decide)
    · cases hmn : truthy m.marker_num with
      | true =>
        rw [if_pos hmn] at e
        exact hsan_take _ _ e.symm
      | false =>
        rw [if_neg (by simp [hmn])] at e
        rcases hflag with rfl | rfl <;> exact absurd e (by decide)
  · split at hm
    case isTrue han =>
      simp only [List.mem_cons, List.not_mem_nil, or_false] at hm
      rcases hm with e | e
      · rcases hflag with rfl | rfl <;> exact absurd e (by decide)
      · exact hsan_take _ _ e.symm
    case isFalse han => simp at hm

theorem px_mem_characterization (m : Meta)
    (h : "-O.px".toList ∈ teqc_args m) :
    truthy m.station_cartesian = true ∧ coordsOk (m.station_cartesian.getD []) = true := by
  unfold teqc_args at h
  rcases List.mem_append.mp h with hb | hp
  · exact absurd hb (px_pg_not_mem_baseArgs m _ (Or.inl rfl))
  · rcases mem_posArgs hp with ⟨_, hc, hok⟩ | ⟨he, _⟩ | hv
    · exact ⟨hc, hok⟩
    · exact absurd he (by decide)
    · exact absurd hv (by decide)

theorem pg_mem_characterization (m : Meta)
    (h : "-O.pg".toList ∈ teqc_args m) :
    truthy m.station_cartesian = false ∧ truthy m.station_llh = true ∧
      coordsOk (m.station_llh.getD []) = true := by
  unfold teqc_args at h
  rcases List.mem_append.mp h with hb | hp
  · exact absurd hb (px_pg_not_mem_baseArgs m _ (Or.inr rfl))
  · rcases mem_posArgs hp with ⟨he, _⟩ | ⟨_, hc, hl, hok⟩ | hv
    · exact absurd he (by decide)
    · exact ⟨hc, hl, hok⟩
    · exact absurd hv (by decide)

theorem px_mem_of (m : Meta) (hc : truthy m.station_cartesian = true)
    (hok : coordsOk (m.station_cartesian.getD []) = true) :
    "-O.px".toList ∈ teqc_args m := by
  unfold teqc_args
  apply List.mem_append_right
  unfold posArgs
  unfold coordsOk at hok
  rw [Bool.and_eq_true] at hok
  rw [if_pos hc, if_pos hok.1, if_pos hok.2]
  exact List.mem_cons_self _ _

theorem coreFlags_always (m : Meta) : coreFlagsPresent m := by
  refine ⟨?_, ?_, ?_, ?_, ?_⟩ <;> simp [teqc_args, baseArgs]

/-- C7: at most one position flag ever appears in the converter argument list;
the Cartesian mode takes precedence when both position strings are supplied;
and a malformed coordinate string (token count not 3 or a token not accepted
by float) makes the corresponding position flag disappear entirely while the
five metadata flags are still emitted. -/
theorem C7_position_flags (m : Meta) :
    (¬ ("-O.px".toList ∈ teqc_args m ∧ "-O.pg".toList ∈ teqc_args m)) ∧
    (truthy m.station_cartesian = true → "-O.pg".toList ∉ teqc_args m) ∧
    (truthy m.station_cartesian = true →
      coordsOk (m.station_cartesian.getD []) = true →
      "-O.px".toList ∈ teqc_args m) ∧
    (truthy m.station_cartesian = true →
      coordsOk (m.station_cartesian.getD []) = false →
      "-O.px".toList ∉ teqc_args m ∧ "-O.pg".toList ∉ teqc_args m ∧
      coreFlagsPresent m) ∧
    (truthy m.station_cartesian = false → truthy m.station_llh = true →
      coordsOk (m.station_llh.getD []) = false →
      "-O.px".toList ∉ teqc_args m ∧ "-O.pg".toList ∉ teqc_args m ∧
      coreFlagsPresent m) := by
  refine ⟨?_, ?_, ?_, ?_, ?_⟩
  · rintro ⟨hpx, hpg⟩
    have h1 := (px_mem_characterization m hpx).1
    have h2 := (pg_mem_characterization m hpg).1
    rw [h1] at h2
    exact Bool.true_eq_false ▸ h2
  · intro hc hpg
    have h2 := (pg_mem_characterization m hpg).1
    rw [hc] at h2
    exact Bool.true_eq_false ▸ h2
  · exact px_mem_of m
  · intro hc hbad
    refine ⟨?_, ?_, coreFlags_always m⟩
    · intro hpx
      have h := (px_mem_characterization m hpx).2
      rw [hbad] at h
      exact Bool.true_eq_false ▸ h.symm
    · intro hpg
      have h := (pg_mem_characterization m hpg).1
      rw [hc] at h
      exact Bool.true_eq_false ▸ h
  · intro hc hl hbad
    refine ⟨?_, ?_, coreFlags_always m⟩
    · intro hpx
      have h := (px_mem_characterization m hpx).1
      rw [hc] at h
      exact Bool.true_eq_false ▸ h.symm
    · intro hpg
      have h := (pg_mem_characterization m hpg).2.2
      rw [hbad] at h
      exact Bool.true_eq_false ▸ h.symm

/-- Witness for C7_position_flags: with both positions supplied and a
well-formed Cartesian string, only the Cartesian flag appears. -/
theorem C7_position_flags_witness :
    "-O.px".toList ∈ teqc_args metaFull ∧ "-O.pg".toList ∉ teqc_args metaFull :=
  ⟨(C7_position_flags metaFull).2.2.1 (by decide) (by decide),
   (C7_position_flags metaFull).2.1 (by decide)⟩

end GnssFtp
